import Mathlib

/-!
# Verification of the Modbus/TCP simulator core

A shallow embedding of the simulator in `modbus_simulator_final.py` and the
extended simulator / server lifecycle in `modbus_gui.py`, together with
theorems settling the frozen claims about the natural-language specification.

Modelling conventions:
* Python runtime values are `PyVal` (integers, booleans, strings).  IEEE-754
  floating point values and the `float32`/`float64` declared types are outside
  the model; every claim is settled over the integer/boolean/string fragment.
* Wall-clock time (`time.time()`) is an integer number of seconds.
* Python exceptions are explicit: fallible primitives return `Except Unit _`,
  and each `try/except` of the source becomes a `match` on that result.
* Python `dict`s are association lists in insertion order with unique keys;
  `listUpdate` mirrors `d[k] = v` (replace in place, or append).
* Value producers (`config['value']` callables) are deterministic functions of
  the current time; a producer that raises is a function returning `.error`.
-/

set_option maxHeartbeats 1000000

namespace ModbusSim

/-- Python runtime values stored in the simulator's configuration maps.
Floating-point values are outside this model. -/
inductive PyVal where
  | vint (n : Int)
  | vbool (b : Bool)
  | vstr (s : String)
deriving DecidableEq, Repr

/-- Declared register data types (the `data_type` strings of the source);
`float32`/`float64` are omitted together with float values. -/
inductive DataType where
  | int16
  | uint16
  | int32
  | uint32
  | bool
  | string
deriving DecidableEq, Repr

/-- Python `int(value)`: identity on ints, 0/1 on bools, sign/digit parsing on
strings.  `.error` models the `ValueError`/`TypeError` raised otherwise. -/
def pyInt : PyVal → Except Unit Int
  | .vint n => .ok n
  | .vbool b => .ok (if b then 1 else 0)
  | .vstr s =>
    match s.toInt? with
    | some n => .ok n
    | none => .error ()

/-- Python `bool(value)` truthiness (never raises). -/
def pyBool : PyVal → Bool
  | .vint n => n != 0
  | .vbool b => b
  | .vstr s => s != ""

/-- Python `str(value)` (never raises). -/
def pyStr : PyVal → String
  | .vint n => toString n
  | .vbool b => if b then "True" else "False"
  | .vstr s => s

/-- Python `int(x) & 0xFFFF` on an arbitrary-precision integer. -/
def mask16 (n : Int) : Nat := (n.emod 65536).toNat

/-- Python `int(x) & 0xFFFFFFFF`. -/
def mask32 (n : Int) : Nat := (n.emod 4294967296).toNat

/-- `convert_to_data_type` (modbus_simulator_final.py lines 163-187): convert a
value to the declared type; `ValueError`/`TypeError` from `int()` yields 0.
Note `int32` is returned unmasked, exactly as in the source. -/
def convert_to_data_type (v : PyVal) (dt : DataType) : PyVal :=
  match dt with
  | .int16 =>
    match pyInt v with
    | .ok n => .vint (mask16 n)
    | .error _ => .vint 0
  | .uint16 =>
    match pyInt v with
    | .ok n => .vint (mask16 n)
    | .error _ => .vint 0
  | .int32 =>
    match pyInt v with
    | .ok n => .vint n
    | .error _ => .vint 0
  | .uint32 =>
    match pyInt v with
    | .ok n => .vint (mask32 n)
    | .error _ => .vint 0
  | .bool => .vbool (pyBool v)
  | .string => .vstr (pyStr v)

/-- Python `ord(char) & 0xFFFF` (one register per character). -/
def packChar (c : Char) : Nat := c.toNat % 65536

/-- `pack_value_to_registers` (lines 189-233): pack a typed value into 16-bit
registers, big-endian word order.  Any exception yields `[0]` (the source's
`except` branch); with float types excluded, the only exception source is
`int()` on a non-numeric string. -/
def pack_value_to_registers (v : PyVal) (dt : DataType) : List Nat :=
  match dt with
  | .int16 =>
    match pyInt v with
    | .ok n => [mask16 n]
    | .error _ => [0]
  | .uint16 =>
    match pyInt v with
    | .ok n => [mask16 n]
    | .error _ => [0]
  | .int32 =>
    match pyInt v with
    | .ok n => [mask32 n / 65536, mask32 n % 65536]
    | .error _ => [0]
  | .uint32 =>
    match pyInt v with
    | .ok n => [mask32 n / 65536, mask32 n % 65536]
    | .error _ => [0]
  | .bool => [if pyBool v then 1 else 0]
  | .string => ((pyStr v).toList.take 125).map packChar

/-- `get_register_count` (lines 235-238): probe the width of a type by packing
the sample value 0.  For `string` this is `len(str(0)) = 1` regardless of the
length of the actual stored string. -/
def get_register_count (dt : DataType) : Nat :=
  (pack_value_to_registers (.vint 0) dt).length

example : get_register_count .int32 = 2 := by decide
example : get_register_count .string = 1 := by decide
example : pack_value_to_registers (.vint 305419896) .uint32 = [4660, 22136] := by decide

/-! ## Configuration entries and value generation -/

/-- The `value` field of a configuration entry: either a constant or a
callable.  The number of declared parameters (what `inspect.signature`
reports in `generate_data`) is the constructor; producers are deterministic
functions of the current time, returning `.error` when the Python callable
would raise.  `isRandInc` on a zero-parameter producer models the closure-cell
sniff of the GUI's `generate_data` that detects random-increment counters. -/
inductive ConfigValue where
  | const (v : PyVal)
  | func0 (isRandInc : Bool) (f : Int → Except Unit PyVal)
  | func1 (f : List PyVal → Int → Except Unit PyVal)
  | func2 (f : PyVal → PyVal → Int → Except Unit PyVal)

/-- One entry of `data_config` / `bit_config` (the dict built by
`set_data_config` / `set_bit_config`).  `data_range` is `None` or a Python
list; `current_value` is always seeded at install time (source line 59). -/
structure RegConfig where
  value : ConfigValue
  interval : Int
  last_update : Int
  data_range : Option (List PyVal)
  data_type : DataType
  current_value : PyVal

/-- Python truthiness of the `data_range` field: `None` and `[]` are falsy. -/
def rangeTruthy : Option (List PyVal) → Bool
  | none => false
  | some l => l != []

/-- The raw producer invocation of `generate_data`
(modbus_simulator_final.py lines 105-122 and 136-153): dispatch on the
parameter count and on truthiness of `data_range`.  Calling a 1- or
2-parameter callable without arguments (no range configured), or indexing a
one-element range with `[1]`, raises — modelled as `.error`.  A constant is
returned as is (the non-callable path). -/
def rawValue (cv : ConfigValue) (range : Option (List PyVal)) (t : Int) :
    Except Unit PyVal :=
  match cv with
  | .const v => .ok v
  | .func0 _ f => f t
  | .func1 f =>
    if rangeTruthy range then f (range.getD []) t else .error ()
  | .func2 f =>
    if rangeTruthy range then
      match range.getD [] with
      | a :: b :: _ => f a b t
      | _ => .error ()
    else .error ()

/-- `generate_data` (modbus_simulator_final.py lines 98-161).  The bit-config
branch (lines 101-130) and the plain branch (lines 133-161) run the same
logic, so a single definition covers both; the result of the producer is
converted to the declared type, and any exception yields the declared-type
conversion of 0 (the `except` branch, lines 126-128 / 157-159). -/
def generate_data (cfg : RegConfig) (t : Int) : PyVal :=
  match rawValue cfg.value cfg.data_range t with
  | .ok raw => convert_to_data_type raw cfg.data_type
  | .error _ => convert_to_data_type (.vint 0) cfg.data_type

/-- Python `a < b` between configuration values: numeric comparison when both
sides are numbers (bools count as 0/1), lexicographic on two strings, and a
`TypeError` (`.error`) on a mixed number/string comparison. -/
def pyLt (a b : PyVal) : Except Unit Bool :=
  match a, b with
  | .vstr x, .vstr y => .ok (decide (x < y))
  | .vstr _, _ => .error ()
  | _, .vstr _ => .error ()
  | x, y =>
    match pyInt x, pyInt y with
    | .ok m, .ok n => .ok (decide (m < n))
    | _, _ => .error ()

/-- Python `min(a, b)`: `b` when `b < a`, else `a`. -/
def pyMin (a b : PyVal) : Except Unit PyVal := do
  let c ← pyLt b a
  pure (if c then b else a)

/-- Python `max(a, b)`: `b` when `a < b`, else `a`. -/
def pyMax (a b : PyVal) : Except Unit PyVal := do
  let c ← pyLt a b
  pure (if c then b else a)

/-- The raw producer invocation of the GUI override
`ExtendedModbusTCPSimulator.generate_data` (modbus_gui.py lines 147-218):
a `data_range` that is a list of more than two values means a random-list
producer called without arguments; a zero-parameter producer with a two-value
range has its result clamped into the range unless it is a random-increment
counter (closure sniff, lines 179-204). -/
def rawValueGui (cv : ConfigValue) (range : Option (List PyVal)) (t : Int) :
    Except Unit PyVal :=
  match cv with
  | .const v => .ok v
  | .func0 randInc f =>
    if rangeTruthy range then do
      let l := range.getD []
      if 2 < l.length then f t
      else do
        let r ← f t
        let lo ← match l with
          | a :: _ => Except.ok a
          | _ => Except.error ()
        let hi ← match l with
          | _ :: b :: _ => Except.ok b
          | _ => Except.error ()
        let below ← pyLt r lo
        let above ← pyLt hi r
        if below || above then
          if randInc then pure r
          else do
            let m ← pyMin hi r
            pyMax lo m
        else pure r
    else f t
  | .func1 f =>
    if rangeTruthy range then
      if 2 < (range.getD []).length then .error () else f (range.getD []) t
    else .error ()
  | .func2 f =>
    if rangeTruthy range then
      if 2 < (range.getD []).length then .error ()
      else
        match range.getD [] with
        | a :: b :: _ => f a b t
        | _ => .error ()
    else .error ()

/-- `ExtendedModbusTCPSimulator.generate_data` (modbus_gui.py lines 141-225):
same exception policy as the base class — any exception in the callable path
yields the declared-type conversion of 0. -/
def generate_data_gui (cfg : RegConfig) (t : Int) : PyVal :=
  match rawValueGui cfg.value cfg.data_range t with
  | .ok raw => convert_to_data_type raw cfg.data_type
  | .error _ => convert_to_data_type (.vint 0) cfg.data_type

/-! ## Refresh-if-due -/

/-- The refresh-if-due step performed on an entry by `handle_read_request`
(lines 436-438 / 456-458 / 489-491) and `generate_register_with_bits`
(lines 248-250 / 266-268): when `current_time - last_update >= interval` the
producer runs and cache plus timestamp are updated.  The second component
counts producer invocations (0 or 1). -/
def refreshEntry (cfg : RegConfig) (t : Int) : RegConfig × Nat :=
  if cfg.interval ≤ t - cfg.last_update then
    ({ cfg with last_update := t, current_value := generate_data cfg t }, 1)
  else (cfg, 0)

/-- The value an entry holds after the refresh-if-due step at time `t`
(`config.get('current_value', config['value'])` after the conditional
update; entries always carry `current_value`, seeded at install). -/
def refreshedValue (cfg : RegConfig) (t : Int) : PyVal :=
  (refreshEntry cfg t).1.current_value

/-! ## Association lists modelling Python dicts -/

/-- First-match lookup in an association list (Python `d[k]` / `k in d`;
dict keys are unique, so first match is the binding). -/
def lookupA {α β : Type} [DecidableEq α] : List (α × β) → α → Option β
  | [], _ => none
  | p :: rest, k => if p.1 = k then some p.2 else lookupA rest k

/-- Python `d[k] = v`: replace the binding in place, or append a new one
(dicts preserve insertion order). -/
def listUpdate {α β : Type} [DecidableEq α] :
    List (α × β) → α → β → List (α × β)
  | [], k, v => [(k, v)]
  | p :: rest, k, v =>
    if p.1 = k then (p.1, v) :: rest else p :: listUpdate rest k v

/-- Python list slice assignment `l[a:b] = xs` for nonnegative bounds
(clamped to the list, empty when `b ≤ a`). -/
def pySetSlice (l : List Nat) (a b : Nat) (xs : List Nat) : List Nat :=
  l.take (min a l.length) ++ xs ++ l.drop (max (min b l.length) (min a l.length))

/-! ## The register store read path -/

/-- Set or clear one bit of a register word (lines 273-276):
`register_value |= (1 << bit)` / `register_value &= ~(1 << bit)`.  The clear
mask `0xFFFF ^^^ (1 <<< b)` equals Python's `~(1 << b)` restricted to words
below 2^16, which `set_bit_config`'s 0-15 validation guarantees. -/
def applyBit (w : Nat) (b : Int) (bitOn : Bool) : Nat :=
  if bitOn then w ||| (1 <<< b.toNat) else w &&& (65535 ^^^ (1 <<< b.toNat))

/-- The base word computed by `generate_register_with_bits` (lines 245-260):
the entry at the base address is refreshed if due, and `int(value) & 0xFFFF`
of its cached value is taken when the value is numeric (Python bools are
ints), else 0; an unconfigured base address yields 0. -/
def baseWord (store : List (Nat × RegConfig)) (addr : Nat) (t : Int) : Nat :=
  match lookupA store addr with
  | some cfg =>
    match refreshedValue cfg t with
    | .vint n => mask16 n
    | .vbool b => if b then 1 else 0
    | .vstr _ => 0
  | none => 0

/-- `generate_register_with_bits` (lines 241-280): the base word, then every
configured bit of the overlay refreshed-if-due and set/cleared according to
the truthiness of its cached value, in dict (insertion) order. -/
def generate_register_with_bits (store : List (Nat × RegConfig))
    (bitStore : List (Nat × List (Int × RegConfig))) (addr : Nat) (t : Int) :
    Nat :=
  let base := baseWord store addr t
  match lookupA bitStore addr with
  | some bl =>
    bl.foldl (fun w p => applyBit w p.1 (pyBool (refreshedValue p.2 t))) base
  | none => base

/-- One iteration of the entry loop of `handle_read_request` for word reads
(lines 452-503): an entry whose address lies in the window writes its packed
words (truncated at the window end); an entry starting before the window
whose probed width reaches the window writes its packed words with the
leading `start - addr` words skipped. -/
def entryStep (start q : Nat) (t : Int) (resp : List Nat)
    (p : Nat × RegConfig) : List Nat :=
  let addr := p.1
  let cfg := p.2
  if start ≤ addr ∧ addr < start + q then
    let regs := pack_value_to_registers (refreshedValue cfg t) cfg.data_type
    let si := addr - start
    let ei := si + regs.length
    if ei ≤ q then pySetSlice resp si ei regs
    else pySetSlice resp si q (regs.take (q - si))
  else
    let rc := get_register_count cfg.data_type
    if addr < start ∧ start ≤ addr + rc - 1 then
      let regs := pack_value_to_registers (refreshedValue cfg t) cfg.data_type
      let toCopy := regs.drop (start - addr)
      let cnt := min toCopy.length q
      pySetSlice resp 0 cnt (toCopy.take cnt)
    else resp

/-- One iteration of the overlay loop of `handle_read_request`
(lines 506-512): a window position whose address has a bit overlay is
overwritten with `generate_register_with_bits`. -/
def overlayStep (store : List (Nat × RegConfig))
    (bitStore : List (Nat × List (Int × RegConfig))) (start : Nat) (t : Int)
    (resp : List Nat) (i : Nat) : List Nat :=
  match lookupA bitStore (start + i) with
  | some _ => resp.set i (generate_register_with_bits store bitStore (start + i) t)
  | none => resp

/-- The word-read assembly of `handle_read_request` (lines 447-512): start
from `[0] * quantity`, run the entry loop over the address space in dict
order, then the overlay loop over the window. -/
def assembleWords (store : List (Nat × RegConfig))
    (bitStore : List (Nat × List (Int × RegConfig))) (start q : Nat)
    (t : Int) : List Nat :=
  (List.range q).foldl (overlayStep store bitStore start t)
    (store.foldl (entryStep start q t) (List.replicate q 0))

/-- The bit-read assembly of `handle_read_request` (lines 431-446): for each
address in the window, the truthiness of the refreshed cached value, or
`False` when unconfigured. -/
def readBits (store : List (Nat × RegConfig)) (start q : Nat) (t : Int) :
    List Bool :=
  (List.range q).map fun i =>
    match lookupA store (start + i) with
    | some cfg => pyBool (refreshedValue cfg t)
    | none => false

/-- The quantity caps of `handle_read_request` (lines 417-422). -/
def max_quantity (fc : Nat) : Nat :=
  if fc = 1 then 2000 else if fc = 2 then 2000
  else if fc = 3 then 125 else if fc = 4 then 125 else 125

/-- Read response payloads: a list of booleans (FC 1/2) or of register words
(FC 3/4), matching the two shapes `handle_read_request` returns. -/
inductive RespData where
  | bits (l : List Bool)
  | words (l : List Nat)
deriving DecidableEq, Repr

/-- The four address spaces of `data_config`. -/
structure Spaces where
  coils : List (Nat × RegConfig)
  discrete_inputs : List (Nat × RegConfig)
  holding_registers : List (Nat × RegConfig)
  input_registers : List (Nat × RegConfig)

/-- The two overlay spaces of `bit_config`. -/
structure BitSpaces where
  holding_registers : List (Nat × List (Int × RegConfig))
  input_registers : List (Nat × List (Int × RegConfig))

/-- `handle_read_request` (lines 399-515): map the function code to an
address space, clamp the quantity at the cap (lines 424-426), and assemble
the response data.  An unmapped function code returns the empty initial
list (line 412-414). -/
def handle_read_request (dc : Spaces) (bc : BitSpaces) (fc start q : Nat)
    (t : Int) : RespData :=
  let q2 := min q (max_quantity fc)
  if fc = 1 then .bits (readBits dc.coils start q2 t)
  else if fc = 2 then .bits (readBits dc.discrete_inputs start q2 t)
  else if fc = 3 then
    .words (assembleWords dc.holding_registers bc.holding_registers start q2 t)
  else if fc = 4 then
    .words (assembleWords dc.input_registers bc.input_registers start q2 t)
  else .bits []

/-! ## Codec -/

/-- `struct.pack('>B', x)`: one byte; raises (`.error`) when out of range. -/
def packB (x : Nat) : Except Unit (List Nat) :=
  if x < 256 then .ok [x] else .error ()

/-- `struct.pack('>H', x)`: two big-endian bytes; raises when out of range. -/
def packH (x : Nat) : Except Unit (List Nat) :=
  if x < 65536 then .ok [x / 256, x % 256] else .error ()

/-- The packed-bit bytes of an FC1/FC2 response body (lines 294-300): the
bits little-endian within each byte, `if idx < len(data) and data[idx]`. -/
def bitsBytes (data : List Bool) : List Nat :=
  (List.range ((data.length + 7) / 8)).map fun i =>
    (List.range 8).foldl
      (fun byteVal bit =>
        if data.getD (i * 8 + bit) false then byteVal ||| (1 <<< bit)
        else byteVal)
      0

/-- The FC1/FC2 response body (lines 289-313): a byte count `⌈n/8⌉` followed
by the packed bits.  The per-byte values are below 256 by construction, so
only the byte-count pack can raise. -/
def bitsBody (data : List Bool) : Except Unit (List Nat) := do
  let hd ← packB ((data.length + 7) / 8)
  pure (hd ++ bitsBytes data)

/-- The register bytes of an FC3/FC4 response body (lines 324-325): each
value masked with `int(value) & 0xFFFF` and split into two big-endian
bytes. -/
def wordsBytes (data : List Nat) : List Nat :=
  (data.map (· % 65536)).foldr (fun v acc => v / 256 :: v % 256 :: acc) []

/-- The FC3/FC4 response body (lines 315-337): byte count `2 * len` followed
by the register bytes. -/
def wordsBody (data : List Nat) : Except Unit (List Nat) := do
  let hd ← packB ((data.map (· % 65536)).length * 2)
  pure (hd ++ wordsBytes data)

/-- Python truthiness of the response-data items when FC 1/2 packs them as
bits (`if data[idx]`). -/
def dataAsBits : RespData → List Bool
  | .bits l => l
  | .words l => l.map (· != 0)

/-- `int(value)` on the response-data items when FC 3/4 packs them as words
(`int(True) = 1`). -/
def dataAsWords : RespData → List Nat
  | .words l => l
  | .bits l => l.map fun b => if b then 1 else 0

/-- The function-code dispatch of `create_modbus_response` (lines 289-343):
FC 1/2 pack bits, FC 3/4 pack words, anything else sets the 0x80 error flag
with exception code 0x01. -/
def buildBody (fc : Nat) (data : RespData) : Except Unit (Nat × List Nat) :=
  if fc = 1 || fc = 2 then do
    let body ← bitsBody (dataAsBits data)
    pure (fc, body)
  else if fc = 3 || fc = 4 then do
    let body ← wordsBody (dataAsWords data)
    pure (fc, body)
  else do
    let body ← packB 1
    pure (fc ||| 128, body)

/-- The MBAP header `struct.pack('>HHHB', tid, 0, length, uid)`
(lines 350-354). -/
def mkHeader (tid len uid : Nat) : Except Unit (List Nat) := do
  let a ← packH tid
  let b ← packH 0
  let c ← packH len
  let d ← packB uid
  pure (a ++ b ++ c ++ d)

/-- The `except` branch of `create_modbus_response` (lines 364-371): a
SERVER_FAILURE frame `pack('>HHHBB', tid, 0, 3, uid, fc|0x80) + pack('>B', 4)`;
`.error` models the rare case where this pack itself raises and the
exception escapes. -/
def create_modbus_error_frame (tid uid fc : Nat) : Except Unit (List Nat) := do
  let h ← mkHeader tid 3 uid
  let f ← packB (fc ||| 128)
  pure (h ++ f ++ [4])

/-- `create_modbus_response` (lines 282-371): build the body for the function
code, prefix the MBAP header with length `1 + 1 + len(body)` and the function
code byte; any exception is converted into the SERVER_FAILURE frame. -/
def create_modbus_response (tid uid fc : Nat) (data : RespData) :
    Except Unit (List Nat) :=
  let attempt : Except Unit (List Nat) := do
    let r ← buildBody fc data
    let h ← mkHeader tid (1 + 1 + r.2.length) uid
    let fb ← packB r.1
    pure (h ++ fb ++ r.2)
  match attempt with
  | .ok frame => .ok frame
  | .error _ => create_modbus_error_frame tid uid fc

/-- A parsed request (the dict returned by `parse_modbus_request`). -/
structure ParsedReq where
  transaction_id : Nat
  unit_id : Nat
  function_code : Nat
  data : List Nat
deriving DecidableEq, Repr

/-- `parse_modbus_request` (lines 373-397): `None` when the buffer is shorter
than 8 bytes; otherwise unpack the MBAP header and take
`data[8 : 8 + length - 2]` as payload — a Python slice, silently clamped to
the buffer (the `except` branch is unreachable once the length check
passed). -/
def parse_modbus_request (d : List Nat) : Option ParsedReq :=
  if d.length < 8 then none
  else
    some
      { transaction_id := 256 * d.getD 0 0 + d.getD 1 0
        unit_id := d.getD 6 0
        function_code := d.getD 7 0
        data := (d.take (6 + (256 * d.getD 4 0 + d.getD 5 0))).drop 8 }

/-- The MBAP length field of an encoded frame (bytes 4 and 5). -/
def lengthField (frame : List Nat) : Nat :=
  256 * frame.getD 4 0 + frame.getD 5 0

/-! ## Configuration ingest and server lifecycle -/

/-- The empty `data_config` built by `ModbusTCPSimulator.__init__`
(lines 18-23). -/
def initSpaces : Spaces := ⟨[], [], [], []⟩

/-- The empty `bit_config` (lines 25-28). -/
def initBitSpaces : BitSpaces := ⟨[], []⟩

/-- Simulator state as seen by the configuration-ingest API and the GUI:
the two configuration maps plus `original_data_config`
(`ExtendedModbusTCPSimulator.__init__`, modbus_gui.py line 28).  `none`
models the initial empty dict `{}`, which is falsy in `reset_data`'s
truthiness test; after `save_original_config` the attribute always holds the
four-space dict, which is truthy even when every space is empty. -/
structure SimState where
  data_config : Spaces
  bit_config : BitSpaces
  original_data_config : Option Spaces

/-- A fresh `ExtendedModbusTCPSimulator`. -/
def initSimState : SimState := ⟨initSpaces, initBitSpaces, none⟩

/-- The space names accepted by `set_data_config`. -/
def validSpace (s : String) : Bool :=
  s = "coils" || s = "discrete_inputs" || s = "holding_registers" ||
    s = "input_registers"

/-- The space names accepted by `set_bit_config`. -/
def validBitSpace (s : String) : Bool :=
  s = "holding_registers" || s = "input_registers"

/-- `set_data_config` (lines 42-60): raise `ValueError` on an unknown space
name (second component `true`, state untouched); otherwise install the entry
— replacing any previous binding — and immediately seed `current_value` by
one `generate_data` call at the current time.  No other validation is
performed: the interval and range are stored as given. -/
def set_data_config (st : SimState) (space : String) (addr : Nat)
    (value : ConfigValue) (interval : Int) (range : Option (List PyVal))
    (dt : DataType) (t : Int) : SimState × Bool :=
  if validSpace space then
    let base : RegConfig := ⟨value, interval, t, range, dt, .vint 0⟩
    let cfg := { base with current_value := generate_data base t }
    let dc := st.data_config
    let dc2 :=
      if space = "coils" then { dc with coils := listUpdate dc.coils addr cfg }
      else if space = "discrete_inputs" then
        { dc with discrete_inputs := listUpdate dc.discrete_inputs addr cfg }
      else if space = "holding_registers" then
        { dc with holding_registers := listUpdate dc.holding_registers addr cfg }
      else { dc with input_registers := listUpdate dc.input_registers addr cfg }
    ({ st with data_config := dc2 }, false)
  else (st, true)

/-- One bit definition passed to `set_bit_config` (the per-bit input dict:
`value`, `interval`, `data_range`; the description is opaque). -/
structure BitCfgIn where
  value : ConfigValue
  interval : Int
  data_range : Option (List PyVal)

/-- The loop body of `set_bit_config` (lines 76-94): install bits one at a
time into the inner dict, seeding each cached value; a bit index outside
0..15 raises, keeping the bits already installed (the inner dict is mutated
in place). -/
def installBits (t : Int) : List (Int × RegConfig) → List (Int × BitCfgIn) →
    List (Int × RegConfig) × Bool
  | inner, [] => (inner, false)
  | inner, (b, c) :: rest =>
    if b < 0 ∨ 15 < b then (inner, true)
    else
      let base : RegConfig := ⟨c.value, c.interval, t, c.data_range, .bool, .vint 0⟩
      let cfg := { base with current_value := generate_data base t }
      installBits t (listUpdate inner b cfg) rest

/-- `set_bit_config` (lines 63-96): raise on an unknown space name (state
untouched); otherwise ensure the inner dict for the base address exists and
run the installation loop.  Because Python mutates the inner dict in place,
a raise inside the loop leaves the bits already processed installed. -/
def set_bit_config (st : SimState) (space : String) (addr : Nat)
    (bitConfigs : List (Int × BitCfgIn)) (t : Int) : SimState × Bool :=
  if validBitSpace space then
    let bc := st.bit_config
    let inner0 :=
      if space = "holding_registers" then
        (lookupA bc.holding_registers addr).getD []
      else (lookupA bc.input_registers addr).getD []
    let r := installBits t inner0 bitConfigs
    let bc2 :=
      if space = "holding_registers" then
        { bc with holding_registers := listUpdate bc.holding_registers addr r.1 }
      else { bc with input_registers := listUpdate bc.input_registers addr r.1 }
    ({ st with bit_config := bc2 }, r.2)
  else (st, true)

/-- `save_original_config` (modbus_gui.py lines 227-231): deep-copy the
current `data_config` into `original_data_config`. -/
def save_original_config (st : SimState) : SimState :=
  { st with original_data_config := some st.data_config }

/-- Re-seed one address space in place (the else branch of `reset_data`). -/
def reseed (t : Int) (l : List (Nat × RegConfig)) : List (Nat × RegConfig) :=
  l.map fun p =>
    (p.1, { p.2 with last_update := t, current_value := generate_data p.2 t })

/-- `reset_data` (modbus_gui.py lines 233-247): when a saved original config
exists (truthy), replace `data_config` with it; only when no original was
saved does it re-invoke every entry's producer in place.  `bit_config` is
never touched. -/
def reset_data (st : SimState) (t : Int) : SimState :=
  match st.original_data_config with
  | some orig => { st with data_config := orig }
  | none =>
    { st with
      data_config :=
        { coils := reseed t st.data_config.coils
          discrete_inputs := reseed t st.data_config.discrete_inputs
          holding_registers := reseed t st.data_config.holding_registers
          input_registers := reseed t st.data_config.input_registers } }

/-- One row of the GUI configuration tables, as handed to
`apply_config_to_simulator` (modbus_gui.py lines 2527-2561); the overlay
functions of `bit_config` are taken as already built. -/
structure GuiEntry where
  space : String
  address : Nat
  value : ConfigValue
  interval : Int
  data_range : Option (List PyVal)
  data_type : DataType
  bit_config : List (Int × BitCfgIn)

/-- The configuration loop of `apply_config_to_simulator` (lines 2527-2561):
install each entry and, for register spaces with a non-empty overlay, its bit
configuration.  A `ValueError` from either call propagates, aborting the
rest of the loop (second component `true`). -/
def applyEntries : SimState → List GuiEntry → Int → SimState × Bool
  | st, [], _ => (st, false)
  | st, e :: rest, t =>
    let r1 := set_data_config st e.space e.address e.value e.interval
      e.data_range e.data_type t
    if r1.2 then (r1.1, true)
    else if validBitSpace e.space && !e.bit_config.isEmpty then
      let r2 := set_bit_config r1.1 e.space e.address e.bit_config t
      if r2.2 then (r2.1, true) else applyEntries r2.1 rest t
    else applyEntries r1.1 rest t

/-- `apply_config_to_simulator` (modbus_gui.py lines 2509-2563): clear both
configuration maps (`original_data_config` untouched), then install every
GUI entry. -/
def apply_config_to_simulator (st : SimState) (entries : List GuiEntry)
    (t : Int) : SimState × Bool :=
  applyEntries
    { st with data_config := initSpaces, bit_config := initBitSpaces }
    entries t

/-- `start_server` (modbus_gui.py lines 2565-2584), configuration effects
only: create a fresh simulator, call `save_original_config`, then
`apply_config_to_simulator` — in that order. -/
def start_server (entries : List GuiEntry) (t : Int) : SimState :=
  (apply_config_to_simulator (save_original_config initSimState) entries t).1

/-- `stop_server` (modbus_gui.py lines 2606-2623), configuration effects
only: after stopping the socket, call `reset_data`. -/
def stop_server (st : SimState) (t : Int) : SimState :=
  reset_data st t

/-- `create_robust_periodic_boolean_function` (modbus_gui.py lines
1128-1132): `1 if (int(time.time()) % period) < (period // 2) else 0`, with
Python `%` and floor division `//`. -/
def periodic_boolean_func (period t : Int) : Nat :=
  if t.emod period < period.fdiv 2 then 1 else 0

/-- Whether a runtime value has the shape `convert_to_data_type` produces for
the declared type (the reachable-cache invariant). -/
def typeMatches (v : PyVal) (dt : DataType) : Bool :=
  match dt, v with
  | .int16, .vint _ => true
  | .uint16, .vint _ => true
  | .int32, .vint _ => true
  | .uint32, .vint _ => true
  | .bool, .vbool _ => true
  | .string, .vstr _ => true
  | _, _ => false

/-- The number of data items in a read response payload. -/
def respLength : RespData → Nat
  | .bits l => l.length
  | .words l => l.length

/-! ## Helper lemmas about slice assignment and the read folds -/

theorem pySetSlice_length (l xs : List Nat) (a b : Nat) (hab : a ≤ b)
    (hb : b ≤ l.length) (hx : xs.length = b - a) :
    (pySetSlice l a b xs).length = l.length := by
  have ha : a ≤ l.length := le_trans hab hb
  unfold pySetSlice
  rw [Nat.min_eq_left ha, Nat.min_eq_left hb, Nat.max_eq_left hab]
  simp only [List.length_append, List.length_take, List.length_drop]
  omega

theorem pySetSlice_getElem_outside (l xs : List Nat) (a b i : Nat)
    (hab : a ≤ b) (hb : b ≤ l.length) (hx : xs.length = b - a)
    (hi : i < a ∨ b ≤ i) :
    (pySetSlice l a b xs)[i]? = l[i]? := by
  have ha : a ≤ l.length := le_trans hab hb
  have hlen : (List.take a l ++ xs).length = b := by
    simp [List.length_take, Nat.min_eq_left ha]
    omega
  unfold pySetSlice
  rw [Nat.min_eq_left ha, Nat.min_eq_left hb, Nat.max_eq_left hab]
  rcases hi with hlt | hge
  · rw [List.getElem?_append_left
      (show i < (List.take a l ++ xs).length by rw [hlen]; omega)]
    rw [List.getElem?_append_left
      (show i < (List.take a l).length by
        simp [List.length_take, Nat.min_eq_left ha]; omega)]
    exact List.getElem?_take_of_lt hlt
  · rw [List.getElem?_append_right
      (show (List.take a l ++ xs).length ≤ i by rw [hlen]; omega)]
    rw [hlen, List.getElem?_drop]
    congr 1
    omega

theorem pySetSlice_getElem_inside (l xs : List Nat) (a b i : Nat)
    (hab : a ≤ b) (hb : b ≤ l.length) (hx : xs.length = b - a)
    (hia : a ≤ i) (hib : i < b) :
    (pySetSlice l a b xs)[i]? = xs[i - a]? := by
  have ha : a ≤ l.length := le_trans hab hb
  have hlen : (List.take a l ++ xs).length = b := by
    simp [List.length_take, Nat.min_eq_left ha]
    omega
  unfold pySetSlice
  rw [Nat.min_eq_left ha, Nat.min_eq_left hb, Nat.max_eq_left hab]
  rw [List.getElem?_append_left
    (show i < (List.take a l ++ xs).length by rw [hlen]; omega)]
  rw [List.getElem?_append_right
    (show (List.take a l).length ≤ i by
      simp [List.length_take, Nat.min_eq_left ha]; omega)]
  congr 1
  simp [List.length_take, Nat.min_eq_left ha]

/-- A fold whose step preserves list length preserves it overall. -/
theorem foldl_length_inv {β : Type} (f : List Nat → β → List Nat) (n : Nat)
    (h : ∀ resp x, resp.length = n → (f resp x).length = n)
    (l : List β) (init : List Nat) (hi : init.length = n) :
    (l.foldl f init).length = n := by
  induction l generalizing init with
  | nil => simpa using hi
  | cons x rest ih => exact ih (f init x) (h init x hi)

/-- A fold whose step preserves length and never writes position `i`
leaves position `i` unchanged. -/
theorem foldl_getElem_inv {β : Type} (f : List Nat → β → List Nat) (n i : Nat)
    (hl : ∀ resp x, resp.length = n → (f resp x).length = n)
    (l : List β) (init : List Nat) (hi : init.length = n)
    (hu : ∀ resp x, x ∈ l → resp.length = n → (f resp x)[i]? = resp[i]?) :
    (l.foldl f init)[i]? = init[i]? := by
  induction l generalizing init with
  | nil => rfl
  | cons x rest ih =>
    rw [List.foldl_cons,
      ih (f init x) (hl init x hi)
        (fun r y hy hr => hu r y (List.mem_cons_of_mem x hy) hr),
      hu init x (List.mem_cons_self x rest) hi]

theorem entryStep_length (start q : Nat) (t : Int) (resp : List Nat)
    (p : Nat × RegConfig) (h : resp.length = q) :
    (entryStep start q t resp p).length = q := by
  unfold entryStep
  dsimp only
  split_ifs with h1 h2 h3
  · rw [pySetSlice_length _ _ _ _ (by omega) (by omega) (by omega)]
    exact h
  · rw [pySetSlice_length _ _ _ _ (by omega) (by omega)
      (by simp [List.length_take]; omega)]
    exact h
  · rw [pySetSlice_length _ _ _ _ (by omega) (by omega)
      (by simp [List.length_take])]
    exact h
  · exact h

theorem overlayStep_length (store : List (Nat × RegConfig))
    (bitStore : List (Nat × List (Int × RegConfig))) (start : Nat) (t : Int)
    (resp : List Nat) (i : Nat) :
    (overlayStep store bitStore start t resp i).length = resp.length := by
  unfold overlayStep
  cases lookupA bitStore (start + i) with
  | none => rfl
  | some _ => simp

theorem assembleWords_length (store : List (Nat × RegConfig))
    (bitStore : List (Nat × List (Int × RegConfig))) (start q : Nat)
    (t : Int) : (assembleWords store bitStore start q t).length = q := by
  unfold assembleWords
  apply foldl_length_inv
  · intro resp i hlen
    rw [overlayStep_length]
    exact hlen
  · apply foldl_length_inv
    · intro resp p hlen
      exact entryStep_length start q t resp p hlen
    · simp

theorem readBits_length (store : List (Nat × RegConfig)) (start q : Nat)
    (t : Int) : (readBits store start q t).length = q := by
  simp [readBits]

/-- An index whose address lies outside the packed span of the entry is
never written by `entryStep`. -/
theorem entryStep_getElem_untouched (start q : Nat) (t : Int)
    (resp : List Nat) (p : Nat × RegConfig) (i : Nat) (h : resp.length = q)
    (hiq : i < q)
    (hout : ¬ (p.1 ≤ start + i ∧ start + i < p.1 +
      (pack_value_to_registers (refreshedValue p.2 t) p.2.data_type).length)) :
    (entryStep start q t resp p)[i]? = resp[i]? := by
  unfold entryStep
  dsimp only
  split_ifs with h1 h2 h3
  · apply pySetSlice_getElem_outside _ _ _ _ _ (by omega) (by omega) (by omega)
    omega
  · apply pySetSlice_getElem_outside _ _ _ _ _ (by omega) (by omega)
      (by simp [List.length_take]; omega)
    omega
  · apply pySetSlice_getElem_outside _ _ _ _ _ (by omega) (by omega)
      (by simp [List.length_take])
    right
    simp only [List.length_drop]
    omega
  · rfl

/-- The overlay loop writes each window position at most once: the final
value at `i < q` is `generate_register_with_bits` when the address has an
overlay, the incoming value otherwise. -/
theorem overlay_foldl_getElem (store : List (Nat × RegConfig))
    (bitStore : List (Nat × List (Int × RegConfig))) (start : Nat) (t : Int)
    (n q : Nat) (hqn : q ≤ n) (init : List Nat) (hlen : init.length = n)
    (i : Nat) (hi : i < n) :
    ((List.range q).foldl (overlayStep store bitStore start t) init)[i]? =
      if i < q then
        match lookupA bitStore (start + i) with
        | some _ => some (generate_register_with_bits store bitStore (start + i) t)
        | none => init[i]?
      else init[i]? := by
  induction q with
  | zero => simp
  | succ m ih =>
    have hmn : m ≤ n := by omega
    have hmid : ((List.range m).foldl (overlayStep store bitStore start t)
        init).length = n := by
      apply foldl_length_inv
      · intro resp x hr
        rw [overlayStep_length]; exact hr
      · exact hlen
    rw [List.range_succ, List.foldl_append, List.foldl_cons, List.foldl_nil]
    by_cases him : i = m
    · subst him
      simp only [overlayStep]
      cases hcase : lookupA bitStore (start + i) with
      | some bl =>
        rw [List.getElem?_set_self (by omega)]
        simp [Nat.lt_succ_self]
      | none =>
        rw [ih hmn]
        simp [hcase, Nat.lt_irrefl]
    · simp only [overlayStep]
      cases hcase : lookupA bitStore (start + m) with
      | some bl =>
        rw [List.getElem?_set_ne (fun h => him h.symm), ih hmn]
        by_cases hlt : i < m
        · simp [hlt, Nat.lt_succ_of_lt hlt]
        · have h2 : ¬ i < m + 1 := by omega
          simp [hlt, h2]
      | none =>
        rw [ih hmn]
        by_cases hlt : i < m
        · simp [hlt, Nat.lt_succ_of_lt hlt]
        · have h2 : ¬ i < m + 1 := by omega
          simp [hlt, h2]

/-! ## Bit-overlay composition lemmas -/

theorem testBit_65535 (j : Nat) : (65535 : Nat).testBit j = decide (j < 16) := by
  rw [show (65535 : Nat) = 2 ^ 16 - 1 by norm_num]
  exact Nat.testBit_two_pow_sub_one 16 j

theorem applyBit_testBit_ne (w : Nat) (b : Int) (bo : Bool) (j : Nat)
    (hj : j < 16) (hne : b.toNat ≠ j) :
    (applyBit w b bo).testBit j = w.testBit j := by
  have h1 : (1 <<< b.toNat).testBit j = false := by
    simp [Nat.one_shiftLeft, Nat.testBit_two_pow, hne]
  unfold applyBit
  cases bo with
  | true => simp [h1]
  | false => simp [h1, testBit_65535, hj]

theorem applyBit_testBit_self (w : Nat) (b : Int) (bo : Bool)
    (hb : b.toNat < 16) :
    (applyBit w b bo).testBit b.toNat = bo := by
  have h1 : (1 <<< b.toNat).testBit b.toNat = true := by
    simp [Nat.one_shiftLeft, Nat.testBit_two_pow]
  unfold applyBit
  cases bo with
  | true => simp [h1]
  | false => simp [h1, testBit_65535, hb]

/-- Bits whose index is configured by no overlay entry are left unchanged by
the overlay fold. -/
theorem bitsFold_testBit_ne (t : Int) (bl : List (Int × RegConfig)) (w : Nat)
    (j : Nat) (hj : j < 16) (h : ∀ p ∈ bl, p.1.toNat ≠ j) :
    (bl.foldl (fun w2 p => applyBit w2 p.1 (pyBool (refreshedValue p.2 t))) w).testBit j
      = w.testBit j := by
  induction bl generalizing w with
  | nil => rfl
  | cons p rest ih =>
    rw [List.foldl_cons, ih _ (fun p2 hp => h p2 (List.mem_cons_of_mem p hp)),
      applyBit_testBit_ne _ _ _ _ hj (h p (List.mem_cons_self p rest))]

/-- A configured bit ends up equal to the truthiness of its entry's cached
value (keys unique, as in a Python dict, and in 0..15 as validated by
`set_bit_config`). -/
theorem bitsFold_testBit_mem (t : Int) (bl : List (Int × RegConfig)) (w : Nat)
    (hnd : (bl.map fun p => p.1.toNat).Nodup)
    (hrange : ∀ p ∈ bl, p.1.toNat < 16) (p : Int × RegConfig) (hp : p ∈ bl) :
    (bl.foldl (fun w2 p2 => applyBit w2 p2.1 (pyBool (refreshedValue p2.2 t))) w).testBit
      p.1.toNat = pyBool (refreshedValue p.2 t) := by
  induction bl generalizing w with
  | nil => cases hp
  | cons q rest ih =>
    rw [List.foldl_cons]
    have hnotin : q.1.toNat ∉ rest.map fun p2 => p2.1.toNat :=
      (List.nodup_cons.mp hnd).1
    rcases List.mem_cons.mp hp with heq | hmem
    · subst heq
      rw [bitsFold_testBit_ne t rest _ _ (hrange p (List.mem_cons_self p rest))
        (fun p2 hp2 hc => hnotin (hc ▸ List.mem_map_of_mem _ hp2))]
      exact applyBit_testBit_self _ _ _ (hrange p (List.mem_cons_self p rest))
    · exact ih _ (List.nodup_cons.mp hnd).2
        (fun p2 hp2 => hrange p2 (List.mem_cons_of_mem q hp2)) hmem

/-! ## Codec lemmas -/

theorem wordsBytes_length (l : List Nat) :
    (wordsBytes l).length = 2 * l.length := by
  unfold wordsBytes
  induction l with
  | nil => rfl
  | cons v rest ih => simp_all; omega

theorem bitsBytes_length (l : List Bool) :
    (bitsBytes l).length = (l.length + 7) / 8 := by
  simp [bitsBytes]

theorem bitsBody_ok (l : List Bool) (h : (l.length + 7) / 8 < 256) :
    bitsBody l = .ok ((l.length + 7) / 8 :: bitsBytes l) := by
  simp [bitsBody, packB, h]

theorem wordsBody_ok (l : List Nat) (h : l.length * 2 < 256) :
    wordsBody l = .ok (l.length * 2 :: wordsBytes l) := by
  simp [wordsBody, packB, h]

theorem exbind_ok {α β : Type} (a : α) (f : α → Except Unit β) :
    (Except.ok a >>= f) = f a := rfl

theorem exmap_ok {α β : Type} (g : α → β) (a : α) :
    (g <$> (Except.ok a : Except Unit α)) = .ok (g a) := rfl

theorem dataAsBits_length (data : RespData) :
    (dataAsBits data).length = respLength data := by
  cases data <;> simp [dataAsBits, respLength]

theorem dataAsWords_length (data : RespData) :
    (dataAsWords data).length = respLength data := by
  cases data <;> simp [dataAsWords, respLength]

/-- The body `buildBody` emits for a supported function code. -/
def bodyFor (fc : Nat) (data : RespData) : List Nat :=
  if fc = 1 ∨ fc = 2 then
    ((dataAsBits data).length + 7) / 8 :: bitsBytes (dataAsBits data)
  else (dataAsWords data).length * 2 :: wordsBytes (dataAsWords data)

/-- For a supported function code and a payload within the quantity cap,
`buildBody` succeeds, keeps the function code unflagged, and emits a body of
at most 251 bytes whose first byte is the FC-dependent byte count. -/
theorem buildBody_ok_of_le (fc : Nat) (data : RespData)
    (hfc : fc = 1 ∨ fc = 2 ∨ fc = 3 ∨ fc = 4)
    (hsize : respLength data ≤ max_quantity fc) :
    buildBody fc data = .ok (fc, bodyFor fc data) ∧
      (bodyFor fc data).length ≤ 251 ∧
      (bodyFor fc data).getD 0 0 =
        (if fc = 1 ∨ fc = 2 then (respLength data + 7) / 8
         else 2 * respLength data) := by
  have hbl := dataAsBits_length data
  have hwl := dataAsWords_length data
  rcases hfc with h | h | h | h <;> subst h
  · have hcap : respLength data ≤ 2000 := by simpa [max_quantity] using hsize
    have hbb := bitsBody_ok (dataAsBits data) (by rw [hbl]; omega)
    refine ⟨?_, ?_, ?_⟩
    · simp [buildBody, bodyFor, hbb, exbind_ok]
    · simp [bodyFor, bitsBytes_length, hbl]
      omega
    · simp [bodyFor, hbl]
  · have hcap : respLength data ≤ 2000 := by simpa [max_quantity] using hsize
    have hbb := bitsBody_ok (dataAsBits data) (by rw [hbl]; omega)
    refine ⟨?_, ?_, ?_⟩
    · simp [buildBody, bodyFor, hbb, exbind_ok]
    · simp [bodyFor, bitsBytes_length, hbl]
      omega
    · simp [bodyFor, hbl]
  · have hcap : respLength data ≤ 125 := by simpa [max_quantity] using hsize
    have hbb := wordsBody_ok (dataAsWords data) (by rw [hwl]; omega)
    refine ⟨?_, ?_, ?_⟩
    · simp [buildBody, bodyFor, hbb, exbind_ok]
    · simp [bodyFor, wordsBytes_length, hwl]
      omega
    · simp [bodyFor, hwl]
      omega
  · have hcap : respLength data ≤ 125 := by simpa [max_quantity] using hsize
    have hbb := wordsBody_ok (dataAsWords data) (by rw [hwl]; omega)
    refine ⟨?_, ?_, ?_⟩
    · simp [buildBody, bodyFor, hbb, exbind_ok]
    · simp [bodyFor, wordsBytes_length, hwl]
      omega
    · simp [bodyFor, hwl]
      omega

/-- When the body build succeeds and every header field is in range,
`create_modbus_response` returns the literal frame. -/
theorem create_modbus_response_ok (tid uid fc fc2 : Nat) (data : RespData)
    (body : List Nat) (hb : buildBody fc data = .ok (fc2, body))
    (htid : tid < 65536) (huid : uid < 256) (hfc2 : fc2 < 256)
    (hlen : 1 + 1 + body.length < 65536) :
    create_modbus_response tid uid fc data = .ok
      ([tid / 256, tid % 256, 0, 0, (1 + 1 + body.length) / 256,
        (1 + 1 + body.length) % 256, uid, fc2] ++ body) := by
  have h2 : 2 + body.length < 65536 := by omega
  simp [create_modbus_response, mkHeader, packH, packB, hb, htid, huid,
    hfc2, hlen, h2, exbind_ok, exmap_ok]

/-- Parsing a well-formed encoded frame recovers its components. -/
theorem parse_frame_append (b0 b1 b6 b7 L : Nat) (body : List Nat)
    (hL : L = 1 + 1 + body.length) (hlt : L < 65536) :
    parse_modbus_request ([b0, b1, 0, 0, L / 256, L % 256, b6, b7] ++ body) =
      some ⟨256 * b0 + b1, b6, b7, body⟩ := by
  have hsplit : ([b0, b1, 0, 0, L / 256, L % 256, b6, b7] ++ body)
      = b0 :: b1 :: 0 :: 0 :: L / 256 :: L % 256 :: b6 :: b7 :: body := by
    simp
  rw [hsplit]
  have hstep : parse_modbus_request
      (b0 :: b1 :: 0 :: 0 :: L / 256 :: L % 256 :: b6 :: b7 :: body)
      = some ⟨256 * b0 + b1, b6, b7,
          ((b0 :: b1 :: 0 :: 0 :: L / 256 :: L % 256 :: b6 :: b7 :: body).take
            (6 + (256 * (L / 256) + L % 256))).drop 8⟩ := by
    unfold parse_modbus_request
    rw [if_neg (by simp)]
    rfl
  rw [hstep]
  rw [Nat.div_add_mod L 256]
  have h68 : 6 + L = 8 + body.length := by omega
  rw [h68]
  have hfull : (b0 :: b1 :: 0 :: 0 :: L / 256 :: L % 256 :: b6 :: b7 :: body).length
      = 8 + body.length := by simp; omega
  rw [← hfull, List.take_length]
  rfl

/-! ## Concrete fixtures used by counterexamples and witnesses -/

/-- A fixed uint32 holding register holding 0x12345678. -/
def cU32demo : RegConfig :=
  ⟨.const (.vint 305419896), 1000, 0, none, .uint32, .vint 305419896⟩

/-- A bit overlay entry whose cached value is `True`. -/
def cBitTrue : RegConfig :=
  ⟨.const (.vbool true), 1000, 0, none, .bool, .vbool true⟩

/-- A fixed string register holding "ab" (packs into two words). -/
def cStrAB : RegConfig :=
  ⟨.const (.vstr "ab"), 1000, 0, none, .string, .vstr "ab"⟩

/-- An int16 register with a zero-parameter producer and interval 1. -/
def cCount : RegConfig :=
  ⟨.func0 false (fun _ => .ok (.vint 7)), 1, 0, none, .int16, .vint 7⟩

/-- A GUI row installing a fixed int16 holding register at address 0. -/
def demoHolding : GuiEntry :=
  ⟨"holding_registers", 0, .const (.vint 5), 1, none, .int16, []⟩

/-! ## State-preservation lemmas for the ingest API -/

theorem set_data_config_original (st : SimState) (space : String) (addr : Nat)
    (v : ConfigValue) (i : Int) (r : Option (List PyVal)) (dt : DataType)
    (t : Int) :
    (set_data_config st space addr v i r dt t).1.original_data_config
      = st.original_data_config := by
  unfold set_data_config
  dsimp only
  split_ifs <;> rfl

theorem set_bit_config_original (st : SimState) (space : String) (addr : Nat)
    (bcs : List (Int × BitCfgIn)) (t : Int) :
    (set_bit_config st space addr bcs t).1.original_data_config
      = st.original_data_config := by
  unfold set_bit_config
  dsimp only
  split_ifs <;> rfl

theorem applyEntries_original (l : List GuiEntry) (st : SimState) (t : Int) :
    (applyEntries st l t).1.original_data_config = st.original_data_config := by
  induction l generalizing st with
  | nil => rfl
  | cons e rest ih =>
    unfold applyEntries
    dsimp only
    split_ifs with h1 h2 h3
    · exact set_data_config_original st e.space e.address e.value e.interval
        e.data_range e.data_type t
    · rw [set_bit_config_original, set_data_config_original]
    · rw [ih, set_bit_config_original, set_data_config_original]
    · rw [ih, set_data_config_original]

theorem lookupA_listUpdate_self {α β : Type} [DecidableEq α]
    (l : List (α × β)) (k : α) (v : β) :
    lookupA (listUpdate l k v) k = some v := by
  induction l with
  | nil => simp [listUpdate, lookupA]
  | cons p rest ih =>
    by_cases hp : p.1 = k
    · simp [listUpdate, lookupA, hp]
    · simp [listUpdate, lookupA, hp, ih]

/-! ## Claim theorems -/

/-- **C8, counterexample.**  The claim states `periodic_bool` outputs 1 when
`⌊now⌋ mod p < p/2` with `p/2` the exact real half.  For period 5 at a time
with `⌊now⌋ mod 5 = 2` the exact-half test holds (`2·2 < 5`), yet the code
compares against the floor `5 // 2 = 2` and outputs 0. -/
theorem periodic_bool_exact_half_cex :
    periodic_boolean_func 5 2 = 0 ∧ 2 * ((2 : Int).emod 5) < 5 := by
  constructor
  · rfl
  · decide

/-- **C8, amended.**  `periodic_bool` outputs 1 iff `⌊now⌋ mod p < ⌊p/2⌋`
(floor division): for even periods this coincides with the exact half
(`2·(t mod p) < p`), for odd periods the window is one second shorter
(`2·(t mod p) < p - 1`). -/
theorem periodic_bool_floor_half (p t : Int) (hp : 0 < p) :
    (p.emod 2 = 0 → (periodic_boolean_func p t = 1 ↔ 2 * (t.emod p) < p)) ∧
    (p.emod 2 = 1 → (periodic_boolean_func p t = 1 ↔ 2 * (t.emod p) < p - 1)) ∧
    (periodic_boolean_func p t = 1 ↔ t.emod p < p.fdiv 2) := by
  have hfd : p.fdiv 2 = p / 2 := Int.fdiv_eq_ediv p (by omega)
  have h1 : 0 ≤ t.emod p := Int.emod_nonneg t (by omega)
  have h2 : t.emod p < p := Int.emod_lt_of_pos t hp
  have hpp : 2 * (p / 2) + p.emod 2 = p := Int.ediv_add_emod p 2
  have hiff : periodic_boolean_func p t = 1 ↔ t.emod p < p.fdiv 2 := by
    unfold periodic_boolean_func
    split_ifs with hc
    · simp [hc]
    · simp [hc]
  refine ⟨?_, ?_, hiff⟩
  · intro hpar
    rw [hiff, hfd]
    constructor
    · intro hx
      omega
    · intro hx
      omega
  · intro hpar
    rw [hiff, hfd]
    constructor
    · intro hx
      omega
    · intro hx
      omega

/-- Witness for `periodic_bool_floor_half` at period 4, time 5. -/
theorem periodic_bool_floor_half_witness :
    (0 : Int) < 4 ∧
    (((4 : Int).emod 2 = 0 →
        (periodic_boolean_func 4 5 = 1 ↔ 2 * ((5 : Int).emod 4) < 4)) ∧
      ((4 : Int).emod 2 = 1 →
        (periodic_boolean_func 4 5 = 1 ↔ 2 * ((5 : Int).emod 4) < 4 - 1)) ∧
      (periodic_boolean_func 4 5 = 1 ↔ (5 : Int).emod 4 < (4 : Int).fdiv 2)) :=
  ⟨by decide, periodic_bool_floor_half 4 5 (by decide)⟩

/-- **C7, counterexample.**  A buffer of exactly 8 bytes whose MBAP length
field is 99 is inconsistent with the buffer (no 97 payload bytes follow), so
the claim requires a MALFORMED failure; the code parses it successfully with
an empty payload, whose length is not `length - 2`. -/
theorem parse_contract_cex :
    parse_modbus_request [0, 1, 0, 0, 0, 99, 1, 3] = some ⟨1, 1, 3, []⟩ ∧
    ([] : List Nat).length ≠ 99 - 2 := by
  constructor
  · rfl
  · decide

/-- **C7, amended.**  Parsing fails iff the buffer is shorter than 8 bytes.
Otherwise it succeeds with the MBAP fields and the payload
`data[8 : 8 + length - 2]`, a Python slice silently clamped to the buffer:
its length is `min (6 + length_field) |data| - 8` in general, and equals
`length_field - 2` exactly when the buffer holds that many payload bytes. -/
theorem parse_contract (d : List Nat) :
    (parse_modbus_request d = none ↔ d.length < 8) ∧
    (8 ≤ d.length →
      parse_modbus_request d =
        some ⟨256 * d.getD 0 0 + d.getD 1 0, d.getD 6 0, d.getD 7 0,
          (d.take (6 + (256 * d.getD 4 0 + d.getD 5 0))).drop 8⟩) ∧
    (∀ req, parse_modbus_request d = some req →
      req.data.length =
        min (6 + (256 * d.getD 4 0 + d.getD 5 0)) d.length - 8) ∧
    (∀ req, parse_modbus_request d = some req →
      2 ≤ 256 * d.getD 4 0 + d.getD 5 0 →
      6 + (256 * d.getD 4 0 + d.getD 5 0) ≤ d.length →
      req.data.length = 256 * d.getD 4 0 + d.getD 5 0 - 2) := by
  by_cases h8 : d.length < 8
  · refine ⟨by simp [parse_modbus_request, h8], ?_, ?_, ?_⟩
    · intro h
      omega
    · intro req hreq
      simp [parse_modbus_request, h8] at hreq
    · intro req hreq
      simp [parse_modbus_request, h8] at hreq
  · have heq : parse_modbus_request d =
        some ⟨256 * d.getD 0 0 + d.getD 1 0, d.getD 6 0, d.getD 7 0,
          (d.take (6 + (256 * d.getD 4 0 + d.getD 5 0))).drop 8⟩ := by
      simp [parse_modbus_request, h8]
    refine ⟨by simp [heq, h8], fun _ => heq, ?_, ?_⟩
    · intro req hreq
      rw [heq] at hreq
      cases hreq
      simp only [List.length_drop, List.length_take]
    · intro req hreq hge hle
      rw [heq] at hreq
      cases hreq
      simp only [List.length_drop, List.length_take]
      omega

/-- Witness for `parse_contract` at a concrete 10-byte request frame. -/
theorem parse_contract_witness :
    (parse_modbus_request [0, 1, 0, 0, 0, 4, 1, 3, 0, 9] = none ↔
      ([0, 1, 0, 0, 0, 4, 1, 3, 0, 9] : List Nat).length < 8) ∧
    (8 ≤ ([0, 1, 0, 0, 0, 4, 1, 3, 0, 9] : List Nat).length →
      parse_modbus_request [0, 1, 0, 0, 0, 4, 1, 3, 0, 9] =
        some ⟨256 * [0, 1, 0, 0, 0, 4, 1, 3, 0, 9].getD 0 0 +
            [0, 1, 0, 0, 0, 4, 1, 3, 0, 9].getD 1 0,
          [0, 1, 0, 0, 0, 4, 1, 3, 0, 9].getD 6 0,
          [0, 1, 0, 0, 0, 4, 1, 3, 0, 9].getD 7 0,
          (([0, 1, 0, 0, 0, 4, 1, 3, 0, 9] : List Nat).take
            (6 + (256 * [0, 1, 0, 0, 0, 4, 1, 3, 0, 9].getD 4 0 +
              [0, 1, 0, 0, 0, 4, 1, 3, 0, 9].getD 5 0))).drop 8⟩) ∧
    (∀ req, parse_modbus_request [0, 1, 0, 0, 0, 4, 1, 3, 0, 9] = some req →
      req.data.length =
        min (6 + (256 * [0, 1, 0, 0, 0, 4, 1, 3, 0, 9].getD 4 0 +
          [0, 1, 0, 0, 0, 4, 1, 3, 0, 9].getD 5 0))
          ([0, 1, 0, 0, 0, 4, 1, 3, 0, 9] : List Nat).length - 8) ∧
    (∀ req, parse_modbus_request [0, 1, 0, 0, 0, 4, 1, 3, 0, 9] = some req →
      2 ≤ 256 * [0, 1, 0, 0, 0, 4, 1, 3, 0, 9].getD 4 0 +
        [0, 1, 0, 0, 0, 4, 1, 3, 0, 9].getD 5 0 →
      6 + (256 * [0, 1, 0, 0, 0, 4, 1, 3, 0, 9].getD 4 0 +
        [0, 1, 0, 0, 0, 4, 1, 3, 0, 9].getD 5 0) ≤
        ([0, 1, 0, 0, 0, 4, 1, 3, 0, 9] : List Nat).length →
      req.data.length = 256 * [0, 1, 0, 0, 0, 4, 1, 3, 0, 9].getD 4 0 +
        [0, 1, 0, 0, 0, 4, 1, 3, 0, 9].getD 5 0 - 2) :=
  parse_contract [0, 1, 0, 0, 0, 4, 1, 3, 0, 9]

/-- **C2, counterexample.**  The claim demands one producer invocation per
interval boundary crossed since `last_refresh`.  For the entry `cCount`
(interval 1, last refresh at 0), a single read at time 3 has crossed three
boundaries (`(3 - 0) / 1 = 3`) but invokes the producer exactly once. -/
theorem refresh_boundaries_cex :
    ((3 : Int) - cCount.last_update) / cCount.interval = 3 ∧
    (refreshEntry cCount 3).2 = 1 ∧ (1 : Nat) ≠ 3 := by
  refine ⟨by decide, rfl, by decide⟩

/-- **C2, amended.**  A read refreshes iff `now - last_refresh ≥ interval`.
A due read invokes the producer exactly once — regardless of how many
interval boundaries were crossed — and sets `cache := producer(now)` and
`last_refresh := now`; any later read within `interval` of it returns the
identical cached value with no further invocation, and in general a read
that is not due leaves the entry untouched with zero invocations. -/
theorem refresh_policy (cfg : RegConfig) (t t2 : Int)
    (hdue : cfg.interval ≤ t - cfg.last_update)
    (hlt : t2 - t < cfg.interval) :
    (refreshEntry cfg t).2 = 1 ∧
    (refreshEntry cfg t).1.last_update = t ∧
    (refreshEntry cfg t).1.current_value = generate_data cfg t ∧
    (refreshEntry (refreshEntry cfg t).1 t2).2 = 0 ∧
    refreshedValue (refreshEntry cfg t).1 t2 = generate_data cfg t ∧
    (∀ (s : Int) (cfg2 : RegConfig), s - cfg2.last_update < cfg2.interval →
      refreshEntry cfg2 s = (cfg2, 0)) := by
  have h1 : refreshEntry cfg t =
      ({ cfg with last_update := t, current_value := generate_data cfg t }, 1) := by
    unfold refreshEntry
    rw [if_pos hdue]
  have hnd : ∀ (s : Int) (cfg2 : RegConfig), s - cfg2.last_update < cfg2.interval →
      refreshEntry cfg2 s = (cfg2, 0) := by
    intro s cfg2 hs
    unfold refreshEntry
    rw [if_neg (by omega)]
  have h2 : refreshEntry (refreshEntry cfg t).1 t2 = ((refreshEntry cfg t).1, 0) := by
    rw [h1]
    exact hnd t2 _ (by simpa using hlt)
  refine ⟨by rw [h1], by rw [h1], by rw [h1], by rw [h2], ?_, hnd⟩
  rw [refreshedValue, h2, h1]

/-- Witness for `refresh_policy`: `cCount` read at time 5 and again at 5. -/
theorem refresh_policy_witness :
    cCount.interval ≤ 5 - cCount.last_update ∧
    ((refreshEntry cCount 5).2 = 1 ∧
      (refreshEntry cCount 5).1.last_update = 5 ∧
      (refreshEntry cCount 5).1.current_value = generate_data cCount 5 ∧
      (refreshEntry (refreshEntry cCount 5).1 5).2 = 0 ∧
      refreshedValue (refreshEntry cCount 5).1 5 = generate_data cCount 5 ∧
      (∀ (s : Int) (cfg2 : RegConfig), s - cfg2.last_update < cfg2.interval →
        refreshEntry cfg2 s = (cfg2, 0))) :=
  ⟨by decide, refresh_policy cCount 5 5 (by decide) (by decide)⟩

/-- **C3, code_bug.**  `start_server` snapshots `original_data_config`
*before* `apply_config_to_simulator` installs any entry, so the snapshot is
always the empty four-space map, and `reset_data` on `stop_server` replaces
`data_config` with it: after any start/stop cycle every configured entry is
gone (first conjunct), although starting the server does install entries
(second conjunct), and no producer is re-invoked on that path. -/
theorem reset_after_start_wipes (entries : List GuiEntry) (t u : Int) :
    (stop_server (start_server entries t) u).data_config = initSpaces ∧
    (start_server [demoHolding] 0).data_config.holding_registers.length = 1 := by
  constructor
  · have horig : (start_server entries t).original_data_config = some initSpaces := by
      unfold start_server apply_config_to_simulator
      rw [applyEntries_original]
      rfl
    unfold stop_server reset_data
    rw [horig]
  · rfl

/-- **C9, counterexample.**  A configuration-ingest call with a non-positive
update interval (here `-1`) is accepted without any synchronous error, and it
installs the entry — the running server state is changed.  The claim says
such a call is rejected and leaves state unchanged. -/
theorem config_ingest_cex :
    (set_data_config initSimState "holding_registers" 0 (.const (.vint 5))
      (-1) none .int16 0).2 = false ∧
    (set_data_config initSimState "holding_registers" 0 (.const (.vint 5))
      (-1) none .int16 0).1.data_config.holding_registers.length = 1 := by
  exact ⟨rfl, rfl⟩

/-- **C9, amended.**  An invalid space name raises synchronously and leaves
the state unchanged, and `set_bit_config` raises on a bit index outside
0..15; but a non-positive interval and an empty `random_list` range are
accepted without error, and a `set_bit_config` call rejected on a later bit
leaves the bits already processed installed. -/
theorem config_ingest_validation :
    (∀ (st : SimState) (space : String) (addr : Nat) (v : ConfigValue)
      (i : Int) (r : Option (List PyVal)) (dt : DataType) (t : Int),
      validSpace space = false →
      set_data_config st space addr v i r dt t = (st, true)) ∧
    (∀ (st : SimState) (space : String) (addr : Nat)
      (bcs : List (Int × BitCfgIn)) (t : Int),
      validBitSpace space = false →
      set_bit_config st space addr bcs t = (st, true)) ∧
    (∀ (st : SimState) (addr : Nat) (v : ConfigValue)
      (r : Option (List PyVal)) (dt : DataType) (t i : Int), i ≤ 0 →
      (set_data_config st "holding_registers" addr v i r dt t).2 = false ∧
      lookupA (set_data_config st "holding_registers" addr v i r dt
        t).1.data_config.holding_registers addr ≠ none) ∧
    (∀ (st : SimState) (addr : Nat) (v : ConfigValue) (t : Int),
      (set_data_config st "holding_registers" addr v 1 (some []) .int16 t).2
        = false) ∧
    (∀ (st : SimState) (addr : Nat) (c0 c1 : BitCfgIn) (t : Int),
      st.bit_config.holding_registers = [] →
      (set_bit_config st "holding_registers" addr [(0, c0), (16, c1)] t).2
        = true ∧
      ∃ bl, lookupA (set_bit_config st "holding_registers" addr
          [(0, c0), (16, c1)] t).1.bit_config.holding_registers addr
          = some bl ∧
        ∃ c, lookupA bl 0 = some c) := by
  refine ⟨?_, ?_, ?_, ?_, ?_⟩
  · intro st space addr v i r dt t hv
    unfold set_data_config
    rw [if_neg (by simp [hv])]
  · intro st space addr bcs t hv
    unfold set_bit_config
    rw [if_neg (by simp [hv])]
  · intro st addr v r dt t i hi
    constructor
    · rfl
    · show lookupA (listUpdate st.data_config.holding_registers addr _) addr ≠ none
      rw [lookupA_listUpdate_self]
      simp
  · intro st addr v t
    rfl
  · intro st addr c0 c1 t hempty
    have hinst : installBits t [] [(0, c0), (16, c1)] =
        ([((0 : Int), (⟨c0.value, c0.interval, t, c0.data_range, .bool,
          generate_data ⟨c0.value, c0.interval, t, c0.data_range, .bool,
            .vint 0⟩ t⟩ : RegConfig))], true) := rfl
    unfold set_bit_config
    rw [if_pos (by decide)]
    dsimp only
    rw [if_pos rfl, if_pos rfl, hempty]
    rw [show (lookupA ([] : List (Nat × List (Int × RegConfig))) addr).getD
      ([] : List (Int × RegConfig)) = [] from rfl]
    rw [hinst]
    refine ⟨rfl, _, lookupA_listUpdate_self _ _ _, _, rfl⟩

/-- Witness for `config_ingest_validation`: instantiate the invalid-space
clause at a concrete bogus name and state. -/
theorem config_ingest_validation_witness :
    validSpace "bogus" = false ∧
    set_data_config initSimState "bogus" 0 (.const (.vint 1)) 1 none .int16 0
      = (initSimState, true) := by
  refine ⟨by decide, ?_⟩
  exact config_ingest_validation.1 initSimState "bogus" 0 (.const (.vint 1))
    1 none .int16 0 (by decide)

/-- **C4.**  For every transaction id, unit id, supported read function code
and response data within the quantity cap, encoding a normal response and
parsing the encoded frame yields back the same transaction id, unit id and
function code with the body as payload, and the MBAP length field equals
`1 + 1 + len(body)`.  Normal responses are encoded only for FC 1-4; writes
(FC 5/6/15/16) echo the raw request and never pass through the codec. -/
theorem frame_roundtrip (tid uid fc : Nat) (data : RespData)
    (htid : tid < 65536) (huid : uid < 256)
    (hfc : fc = 1 ∨ fc = 2 ∨ fc = 3 ∨ fc = 4)
    (hsize : respLength data ≤ max_quantity fc) :
    ∃ frame : List Nat,
      create_modbus_response tid uid fc data = .ok frame ∧
      buildBody fc data = .ok (fc, bodyFor fc data) ∧
      parse_modbus_request frame = some ⟨tid, uid, fc, bodyFor fc data⟩ ∧
      lengthField frame = 1 + 1 + (bodyFor fc data).length := by
  obtain ⟨hb, h251, _⟩ := buildBody_ok_of_le fc data hfc hsize
  have hfc256 : fc < 256 := by rcases hfc with h | h | h | h <;> omega
  have h2len : 1 + 1 + (bodyFor fc data).length < 65536 := by omega
  have hcre := create_modbus_response_ok tid uid fc fc data (bodyFor fc data)
    hb htid huid hfc256 h2len
  refine ⟨_, hcre, hb, ?_, ?_⟩
  · have hp := parse_frame_append (tid / 256) (tid % 256) uid fc
      (1 + 1 + (bodyFor fc data).length) (bodyFor fc data) rfl h2len
    rw [hp, Nat.div_add_mod]
  · simp only [lengthField]
    rw [List.getD_append _ _ _ _ (by simp), List.getD_append _ _ _ _ (by simp)]
    show 256 * ((1 + 1 + (bodyFor fc data).length) / 256) +
      (1 + 1 + (bodyFor fc data).length) % 256 = _
    exact Nat.div_add_mod _ 256

/-- Witness for `frame_roundtrip`: transaction 1, unit 1, FC 3, one word. -/
theorem frame_roundtrip_witness :
    (1 : Nat) < 65536 ∧ (1 : Nat) < 256 ∧
    respLength (RespData.words [1000]) ≤ max_quantity 3 ∧
    ∃ frame : List Nat,
      create_modbus_response 1 1 3 (RespData.words [1000]) = .ok frame ∧
      buildBody 3 (RespData.words [1000]) =
        .ok (3, bodyFor 3 (RespData.words [1000])) ∧
      parse_modbus_request frame =
        some ⟨1, 1, 3, bodyFor 3 (RespData.words [1000])⟩ ∧
      lengthField frame = 1 + 1 + (bodyFor 3 (RespData.words [1000])).length :=
  ⟨by decide, by decide, by decide,
    frame_roundtrip 1 1 3 (RespData.words [1000]) (by decide) (by decide)
      (by decide) (by decide)⟩

/-- **C5.**  A read request whose quantity exceeds the cap (2000 for FC 1/2,
125 for FC 3/4) is silently clamped: the assembled data has exactly the cap
many items, the response is a normal (non-exception) frame whose function
code byte is unflagged, and its byte count equals `⌈q/8⌉` for bit reads and
`2·q` for word reads with `q` the clamped quantity. -/
theorem quantity_clamp (dc : Spaces) (bc : BitSpaces)
    (tid uid fc start q : Nat) (t : Int)
    (htid : tid < 65536) (huid : uid < 256)
    (hfc : fc = 1 ∨ fc = 2 ∨ fc = 3 ∨ fc = 4)
    (hq : max_quantity fc < q) :
    respLength (handle_read_request dc bc fc start q t) = max_quantity fc ∧
    ∃ frame : List Nat,
      create_modbus_response tid uid fc
        (handle_read_request dc bc fc start q t) = .ok frame ∧
      frame.getD 7 0 = fc ∧
      frame.getD 8 0 =
        (if fc = 1 ∨ fc = 2 then (max_quantity fc + 7) / 8
         else 2 * max_quantity fc) := by
  have hlen : respLength (handle_read_request dc bc fc start q t)
      = max_quantity fc := by
    have hmin : min q (max_quantity fc) = max_quantity fc :=
      Nat.min_eq_right (le_of_lt hq)
    rcases hfc with h | h | h | h <;> subst h <;>
      simp [handle_read_request, respLength, readBits_length,
        assembleWords_length, hmin]
  refine ⟨hlen, ?_⟩
  obtain ⟨hb, h251, hbyte⟩ := buildBody_ok_of_le fc _ hfc (le_of_eq hlen)
  have hfc256 : fc < 256 := by rcases hfc with h | h | h | h <;> omega
  have hcre := create_modbus_response_ok tid uid fc fc _ _ hb htid huid
    hfc256 (by omega)
  refine ⟨_, hcre, ?_, ?_⟩
  · rw [List.getD_append _ _ _ _ (by simp)]
    rfl
  · rw [List.getD_append_right _ _ _ _ (by simp)]
    rw [hlen] at hbyte
    simpa using hbyte

/-- Witness for `quantity_clamp`: an FC 3 read of 200 > 125 registers from
an empty store. -/
theorem quantity_clamp_witness :
    max_quantity 3 < 200 ∧
    (respLength (handle_read_request initSpaces initBitSpaces 3 0 200 0)
        = max_quantity 3 ∧
      ∃ frame : List Nat,
        create_modbus_response 1 1 3
          (handle_read_request initSpaces initBitSpaces 3 0 200 0)
          = .ok frame ∧
        frame.getD 7 0 = 3 ∧
        frame.getD 8 0 =
          (if (3 : Nat) = 1 ∨ (3 : Nat) = 2 then (max_quantity 3 + 7) / 8
           else 2 * max_quantity 3)) :=
  ⟨by decide,
    quantity_clamp initSpaces initBitSpaces 1 1 3 0 200 0 (by decide)
      (by decide) (by decide) (by decide)⟩

/-- **C1, counterexample.**  The claim says the word returned for an address
with both an entry and a bit overlay is `pack(E)[0]` with the configured bits
applied.  For a uint32 entry holding 0x12345678, `pack(E)[0]` is the high
word 0x1234, so with bit 0 forced to 1 the claim predicts 0x1235 = 4661; the
code instead builds the base from `int(cached) & 0xFFFF`, the *low* word
0x5678, and returns 0x5679 = 22137. -/
theorem bit_overlay_cex :
    generate_register_with_bits [(10, cU32demo)] [(10, [(0, cBitTrue)])] 10 0
      = 22137 ∧
    applyBit ((pack_value_to_registers (refreshedValue cU32demo 0)
      .uint32).getD 0 0) 0 (pyBool (refreshedValue cBitTrue 0)) = 4661 ∧
    (22137 : Nat) ≠ 4661 := by
  refine ⟨rfl, rfl, by decide⟩

/-- **C1, amended.**  For an address with entry `E` and overlay `B`, the
returned word is built from the base `int(E.cached) & 0xFFFF` (0 when the
cached value is a string): every bit configured in `B` is set or cleared
according to its cached boolean, every bit not configured in `B` keeps the
base value.  The base equals `pack(E)[0]` exactly for the one-word numeric
and boolean declared types (with a type-correct cache), not in general.  The
word a read returns at that address is exactly this composition. -/
theorem bit_overlay_composition (store : List (Nat × RegConfig))
    (bitStore : List (Nat × List (Int × RegConfig))) (addr : Nat) (t : Int)
    (cfg : RegConfig) (bl : List (Int × RegConfig))
    (hcfg : lookupA store addr = some cfg)
    (hbl : lookupA bitStore addr = some bl)
    (hnd : (bl.map fun p => p.1.toNat).Nodup)
    (hrange : ∀ p ∈ bl, 0 ≤ p.1 ∧ p.1 ≤ 15) :
    baseWord store addr t =
      (match refreshedValue cfg t with
        | .vint n => mask16 n
        | .vbool b => if b then 1 else 0
        | .vstr _ => 0) ∧
    (∀ p ∈ bl, (generate_register_with_bits store bitStore addr t).testBit
      p.1.toNat = pyBool (refreshedValue p.2 t)) ∧
    (∀ j, j < 16 → (∀ p ∈ bl, p.1.toNat ≠ j) →
      (generate_register_with_bits store bitStore addr t).testBit j
        = (baseWord store addr t).testBit j) ∧
    ((cfg.data_type = .int16 ∨ cfg.data_type = .uint16 ∨
        cfg.data_type = .bool) →
      typeMatches (refreshedValue cfg t) cfg.data_type = true →
      baseWord store addr t =
        (pack_value_to_registers (refreshedValue cfg t)
          cfg.data_type).getD 0 0) ∧
    (∀ start q i, i < q → addr = start + i →
      (assembleWords store bitStore start q t)[i]? =
        some (generate_register_with_bits store bitStore addr t)) := by
  have hbw : baseWord store addr t =
      (match refreshedValue cfg t with
        | .vint n => mask16 n
        | .vbool b => if b then 1 else 0
        | .vstr _ => 0) := by
    unfold baseWord
    rw [hcfg]
  have hgen : generate_register_with_bits store bitStore addr t =
      bl.foldl (fun w p => applyBit w p.1 (pyBool (refreshedValue p.2 t)))
        (baseWord store addr t) := by
    unfold generate_register_with_bits
    rw [hbl]
  have hr16 : ∀ p ∈ bl, p.1.toNat < 16 := by
    intro p hp
    have := hrange p hp
    omega
  refine ⟨hbw, ?_, ?_, ?_, ?_⟩
  · intro p hp
    rw [hgen]
    exact bitsFold_testBit_mem t bl _ hnd hr16 p hp
  · intro j hj hnotin
    rw [hgen]
    exact bitsFold_testBit_ne t bl _ j hj hnotin
  · intro hdt htm
    rw [hbw]
    cases hv : refreshedValue cfg t with
    | vint n =>
      rw [hv] at htm
      rcases hdt with h | h | h <;> rw [h] <;> rw [h] at htm <;>
        simp_all [typeMatches, pack_value_to_registers, pyInt]
    | vbool b =>
      rw [hv] at htm
      rcases hdt with h | h | h <;> rw [h] <;> rw [h] at htm <;>
        simp_all [typeMatches, pack_value_to_registers, pyInt, pyBool]
    | vstr s =>
      rw [hv] at htm
      rcases hdt with h | h | h <;> rw [h] at htm <;>
        simp [typeMatches] at htm
  · intro start q i hi haddr
    subst haddr
    unfold assembleWords
    rw [overlay_foldl_getElem store bitStore start t q q (le_refl q) _
      (foldl_length_inv _ q (fun r p h => entryStep_length start q t r p h)
        store _ (by simp)) i hi]
    rw [if_pos hi]
    simp only [hbl]

/-- Witness for `bit_overlay_composition` at the concrete uint32 fixture. -/
theorem bit_overlay_composition_witness :
    lookupA [(10, cU32demo)] 10 = some cU32demo ∧
    lookupA [((10 : Nat), [((0 : Int), cBitTrue)])] 10
      = some [((0 : Int), cBitTrue)] ∧
    (([((0 : Int), cBitTrue)].map fun p => p.1.toNat).Nodup) ∧
    (∀ p ∈ [((0 : Int), cBitTrue)], 0 ≤ p.1 ∧ p.1 ≤ 15) ∧
    (∀ p ∈ [((0 : Int), cBitTrue)],
      (generate_register_with_bits [(10, cU32demo)]
        [((10 : Nat), [((0 : Int), cBitTrue)])] 10 0).testBit p.1.toNat
        = pyBool (refreshedValue p.2 0)) := by
  have h := bit_overlay_composition [(10, cU32demo)]
    [((10 : Nat), [((0 : Int), cBitTrue)])] 10 0 cU32demo
    [((0 : Int), cBitTrue)] rfl rfl (by simp) (by decide)
  exact ⟨rfl, rfl, by simp, by decide, h.2.1⟩

/-- **C6, counterexample.**  A string entry "ab" at address 0 packs into two
words and extends into the read window `[1, 2)`; the claim says its packed
words are contributed with the leading word skipped, so position 0 should
hold `ord('b') = 98`.  The code probes the width with `pack(0)` — width 1
for strings — judges the entry non-overlapping, and leaves the word 0. -/
theorem read_coverage_cex :
    (assembleWords [(0, cStrAB)] [] 1 1 0)[0]? = some 0 ∧
    pack_value_to_registers (refreshedValue cStrAB 0) .string = [97, 98] ∧
    (some 0 : Option Nat) ≠ some 98 := by
  refine ⟨rfl, rfl, by decide⟩

/-- **C6, amended.**  For `1 ≤ count ≤ 125` a word read returns exactly
`count` words, whatever is configured (and FC 3 / FC 4 route through this
assembly unclamped); a window position covered by no entry's packed words
and no overlay yields 0; an entry starting before the window whose packed
width equals the probed `get_register_count` width (all fixed-width types;
not strings, whose probe is 1) contributes its packed words with the leading
`start - addr` words skipped. -/
theorem read_coverage (store : List (Nat × RegConfig))
    (bitStore : List (Nat × List (Int × RegConfig))) (start q : Nat)
    (t : Int) (hq1 : 1 ≤ q) (hq2 : q ≤ 125) :
    (assembleWords store bitStore start q t).length = q ∧
    (∀ (dc : Spaces) (bc : BitSpaces),
      handle_read_request dc bc 3 start q t =
        .words (assembleWords dc.holding_registers bc.holding_registers
          start q t) ∧
      handle_read_request dc bc 4 start q t =
        .words (assembleWords dc.input_registers bc.input_registers
          start q t)) ∧
    (∀ i, i < q →
      (∀ p ∈ store, ¬ (p.1 ≤ start + i ∧ start + i < p.1 +
        (pack_value_to_registers (refreshedValue p.2 t)
          p.2.data_type).length)) →
      lookupA bitStore (start + i) = none →
      (assembleWords store bitStore start q t)[i]? = some 0) ∧
    (∀ (a : Nat) (cfg : RegConfig), a < start →
      (pack_value_to_registers (refreshedValue cfg t) cfg.data_type).length
        = get_register_count cfg.data_type →
      start ≤ a + get_register_count cfg.data_type - 1 →
      (∀ j, j < q → lookupA bitStore (start + j) = none) →
      ∀ i, i < q →
        (assembleWords [(a, cfg)] bitStore start q t)[i]? =
          (if start - a + i <
              (pack_value_to_registers (refreshedValue cfg t)
                cfg.data_type).length
           then (pack_value_to_registers (refreshedValue cfg t)
              cfg.data_type)[start - a + i]?
           else some 0)) := by
  refine ⟨assembleWords_length store bitStore start q t, ?_, ?_, ?_⟩
  · intro dc bc
    constructor <;>
      simp [handle_read_request, max_quantity, Nat.min_eq_left hq2]
  · intro i hi hout hnone
    unfold assembleWords
    rw [overlay_foldl_getElem store bitStore start t q q (le_refl q) _
      (foldl_length_inv _ q (fun r p h => entryStep_length start q t r p h)
        store _ (by simp)) i hi]
    rw [if_pos hi]
    simp only [hnone]
    rw [foldl_getElem_inv _ q i
      (fun r p h => entryStep_length start q t r p h) store _ (by simp)
      (fun r p hp hr =>
        entryStep_getElem_untouched start q t r p i hr hi (hout p hp))]
    simp [List.getElem?_replicate_of_lt hi]
  · intro a cfg ha hplen hrc hnone i hi
    unfold assembleWords
    have hstep : (([(a, cfg)] : List (Nat × RegConfig)).foldl
        (entryStep start q t) (List.replicate q 0))
        = entryStep start q t (List.replicate q 0) (a, cfg) := by
      simp
    rw [overlay_foldl_getElem [(a, cfg)] bitStore start t q q (le_refl q) _
      ?hL i hi]
    case hL =>
      rw [hstep]
      exact entryStep_length start q t _ _ (by simp)
    rw [if_pos hi]
    simp only [hnone i hi]
    rw [hstep]
    unfold entryStep
    dsimp only
    rw [if_neg (by omega)]
    rw [if_pos ⟨ha, hrc⟩]
    by_cases hcase : start - a +
        i < (pack_value_to_registers (refreshedValue cfg t)
          cfg.data_type).length
    · rw [if_pos hcase]
      rw [pySetSlice_getElem_inside _ _ _ _ _ (by omega)
        (by simp only [List.length_replicate]; omega)
        (by simp only [List.length_take]; omega) (by omega)
        (by simp only [List.length_drop]; omega)]
      simp only [Nat.sub_zero]
      rw [List.getElem?_take_of_lt (by simp only [List.length_drop]; omega)]
      exact List.getElem?_drop _ _ _
    · rw [if_neg hcase]
      rw [pySetSlice_getElem_outside _ _ _ _ _ (by omega)
        (by simp only [List.length_replicate]; omega)
        (by simp only [List.length_take]; omega) ?side]
      case side =>
        right
        simp only [List.length_drop]
        omega
      simp [List.getElem?_replicate_of_lt hi]

/-- Witness for `read_coverage`: window `[1, 2)` over the uint32 fixture at
address 0, which spans into the window with its low word. -/
theorem read_coverage_witness :
    (1 : Nat) ≤ 1 ∧ (1 : Nat) ≤ 125 ∧
    (assembleWords [(0, cU32demo)] [] 1 1 0).length = 1 ∧
    (assembleWords [(0, cU32demo)] [] 1 1 0)[0]? =
      (if 1 - 0 + 0 <
          (pack_value_to_registers (refreshedValue cU32demo 0)
            .uint32).length
       then (pack_value_to_registers (refreshedValue cU32demo 0)
          .uint32)[1 - 0 + 0]?
       else some 0) := by
  have h := read_coverage [(0, cU32demo)] [] 1 1 0 (by decide) (by decide)
  refine ⟨by decide, by decide, h.1, ?_⟩
  have h4 := h.2.2.2 0 cU32demo (by decide) (by decide) (by decide)
    (fun j _ => rfl) 0 (by decide)
  simpa using h4

theorem typeMatches_convert (v : PyVal) (dt : DataType) :
    typeMatches (convert_to_data_type v dt) dt = true := by
  cases dt <;> cases hv : pyInt v <;>
    simp [convert_to_data_type, typeMatches, hv]

/-- **C10.**  Value generation is total over the modelled domain: a producer
that raises yields the declared-type conversion of 0 (in both the base
simulator's `generate_data` and the GUI override), a value whose `int()`
conversion fails converts to the integer 0, the generated value always has
the declared type, and a read request is answered with a normal response
frame whose function-code byte is unflagged — never the SERVER_FAILURE
exception — whatever the configured producers do. -/
theorem generation_total (cfg : RegConfig) (t : Int) (dc : Spaces)
    (bc : BitSpaces) (tid uid fc start q : Nat)
    (htid : tid < 65536) (huid : uid < 256)
    (hfc : fc = 1 ∨ fc = 2 ∨ fc = 3 ∨ fc = 4) :
    (rawValue cfg.value cfg.data_range t = .error () →
      generate_data cfg t = convert_to_data_type (.vint 0) cfg.data_type) ∧
    (rawValueGui cfg.value cfg.data_range t = .error () →
      generate_data_gui cfg t
        = convert_to_data_type (.vint 0) cfg.data_type) ∧
    (∀ v : PyVal, pyInt v = .error () →
      convert_to_data_type v .int16 = .vint 0 ∧
      convert_to_data_type v .uint16 = .vint 0 ∧
      convert_to_data_type v .int32 = .vint 0 ∧
      convert_to_data_type v .uint32 = .vint 0) ∧
    typeMatches (generate_data cfg t) cfg.data_type = true ∧
    typeMatches (generate_data_gui cfg t) cfg.data_type = true ∧
    (∃ frame : List Nat,
      create_modbus_response tid uid fc
        (handle_read_request dc bc fc start q t) = .ok frame ∧
      frame.getD 7 0 = fc) := by
  refine ⟨?_, ?_, ?_, ?_, ?_, ?_⟩
  · intro h
    simp [generate_data, h]
  · intro h
    simp [generate_data_gui, h]
  · intro v hv
    refine ⟨?_, ?_, ?_, ?_⟩ <;> simp [convert_to_data_type, hv]
  · cases hr : rawValue cfg.value cfg.data_range t <;>
      simp [generate_data, hr, typeMatches_convert]
  · cases hr : rawValueGui cfg.value cfg.data_range t <;>
      simp [generate_data_gui, hr, typeMatches_convert]
  · have hsize : respLength (handle_read_request dc bc fc start q t)
        ≤ max_quantity fc := by
      rcases hfc with h | h | h | h <;> subst h <;>
        simp [handle_read_request, respLength, readBits_length,
          assembleWords_length, max_quantity] <;> omega
    obtain ⟨hb, h251, _⟩ := buildBody_ok_of_le fc _ hfc hsize
    have hfc256 : fc < 256 := by rcases hfc with h | h | h | h <;> omega
    have hcre := create_modbus_response_ok tid uid fc fc _ _ hb htid huid
      hfc256 (by omega)
    refine ⟨_, hcre, ?_⟩
    rw [List.getD_append _ _ _ _ (by simp)]
    rfl

/-- Witness for `generation_total`: a failing producer with int16 declared
type and an FC 3 read of the empty store. -/
theorem generation_total_witness :
    (1 : Nat) < 65536 ∧ (1 : Nat) < 256 ∧
    (rawValue (ConfigValue.func0 false (fun _ => .error ())) none 0
        = .error () →
      generate_data ⟨.func0 false (fun _ => .error ()), 1, 0, none, .int16,
        .vint 0⟩ 0 = convert_to_data_type (.vint 0) .int16) ∧
    typeMatches (generate_data ⟨.func0 false (fun _ => .error ()), 1, 0,
      none, .int16, .vint 0⟩ 0) .int16 = true ∧
    (∃ frame : List Nat,
      create_modbus_response 1 1 3
        (handle_read_request initSpaces initBitSpaces 3 0 1 0) = .ok frame ∧
      frame.getD 7 0 = 3) := by
  have h := generation_total ⟨.func0 false (fun _ => .error ()), 1, 0, none,
    .int16, .vint 0⟩ 0 initSpaces initBitSpaces 1 1 3 0 1 (by decide)
    (by decide) (by decide)
  exact ⟨by decide, by decide, fun he => h.1 he, h.2.2.2.1, h.2.2.2.2.2⟩

end ModbusSim
